import Mathlib

/-!
Verification development for the SAP-export → HeavyBid transformation
(`sap_to_heavybid.py` together with the operations map in
`wbs_operations_mapper.py`).

Modelling conventions (shallow embedding):

* Spreadsheet cells holding the `Order`, `Cost Element` and `Partner-CCtr`
  columns are modelled by `Cell`: a numeric cell (`Cell.int`), a textual cell
  whose content Python's `float()` cannot parse (`Cell.text`), or an empty
  cell / NaN (`Cell.blank`).  The source data's numeric cells hold integral
  values (pandas renders them as floats such as `6603001.0`); they are
  modelled by their integer value, and `astype(str)` of such a cell is
  modelled as the decimal digits followed by `".0"`.
* `Operation` values are integral (operation codes), modelled as `Int`;
  `int(op)` is then the identity and the float/int round trip in the source
  is exact.
* Monetary values and quantities are modelled as `Rat` (the source works on
  pandas float64; all arithmetic used by the program - sums, one division,
  an epsilon comparison - is modelled exactly over `Rat`).
* Python `str.upper` / `str.lower` / `str.capitalize` are modelled on the
  ASCII range (the range the reference data and SAP exports use) by explicit
  letter tables.
* pandas `groupby` is modelled as: collect the distinct group keys in first
  occurrence order and sum the aggregated columns per key.  (pandas emits
  groups sorted by key; no property below depends on the pre-sort row order,
  and the final table is explicitly re-sorted by the program.)
* The current date used in the BoE notes header is passed as an explicit
  string parameter, keeping the embedding pure.
* Columns of the Actuals Report that the program fills with constants or
  NaN and never reads again (Tax/OT %, Crew Code, Pieces, Currency, EOE %,
  Rent Percent, Escalation Percent, Hours Adjustment, MH/Unit, Material
  Factor Type, Material Factor) are omitted from `ActualsRow`; no claim
  mentions them.
-/

-- The `Rat` operations are `@[irreducible]` upstream, which blocks kernel
-- evaluation of the executable embedding on concrete inputs; restore the
-- default reducibility inside this file so that `decide` can run the code.
attribute [local semireducible] Rat.ofScientific Rat.mul Rat.inv Rat.add Rat.sub

/-- A spreadsheet cell as read by pandas: an integral numeric value, a
textual value that Python's `float()` cannot parse, or an empty cell (NaN). -/
inductive Cell where
  | int (n : Int)
  | text (s : String)
  | blank
deriving DecidableEq, Repr

/-- Python `str.split()` whitespace (ASCII part). -/
def pyWs (c : Char) : Bool :=
  c = ' ' || c = '\t' || c = '\n' || c = '\r' || c = '\x0b' || c = '\x0c'

/-- Python `str.lower` on the ASCII letters (identity elsewhere; the data is
ASCII). -/
def pyToLower : Char → Char
  | 'A' => 'a' | 'B' => 'b' | 'C' => 'c' | 'D' => 'd' | 'E' => 'e' | 'F' => 'f'
  | 'G' => 'g' | 'H' => 'h' | 'I' => 'i' | 'J' => 'j' | 'K' => 'k' | 'L' => 'l'
  | 'M' => 'm' | 'N' => 'n' | 'O' => 'o' | 'P' => 'p' | 'Q' => 'q' | 'R' => 'r'
  | 'S' => 's' | 'T' => 't' | 'U' => 'u' | 'V' => 'v' | 'W' => 'w' | 'X' => 'x'
  | 'Y' => 'y' | 'Z' => 'z' | c => c

/-- Python `str.upper` on the ASCII letters (identity elsewhere). -/
def pyToUpper : Char → Char
  | 'a' => 'A' | 'b' => 'B' | 'c' => 'C' | 'd' => 'D' | 'e' => 'E' | 'f' => 'F'
  | 'g' => 'G' | 'h' => 'H' | 'i' => 'I' | 'j' => 'J' | 'k' => 'K' | 'l' => 'L'
  | 'm' => 'M' | 'n' => 'N' | 'o' => 'O' | 'p' => 'P' | 'q' => 'Q' | 'r' => 'R'
  | 's' => 'S' | 't' => 'T' | 'u' => 'U' | 'v' => 'V' | 'w' => 'W' | 'x' => 'X'
  | 'y' => 'Y' | 'z' => 'Z' | c => c

/-- Python `str.capitalize` on a character list: first character upper-cased,
the rest lower-cased. -/
def pyCapitalizeCh : List Char → List Char
  | [] => []
  | c :: cs => pyToUpper c :: cs.map pyToLower

/-- Decimal digit character. -/
def decDigit : Nat → Char
  | 0 => '0' | 1 => '1' | 2 => '2' | 3 => '3' | 4 => '4'
  | 5 => '5' | 6 => '6' | 7 => '7' | 8 => '8' | 9 => '9'
  | _ => '*'

/-- Decimal rendering of a natural number (fuel-indexed helper). -/
def natDecCh : Nat → Nat → List Char
  | 0, _ => []
  | fuel + 1, n => if n < 10 then [decDigit n] else natDecCh fuel (n / 10) ++ [decDigit (n % 10)]

/-- Decimal rendering of a natural number, as Python's `str`.  A fuel of
40 keeps kernel evaluation shallow and is exact for every integer below
10^40 - far beyond the cost elements, operations and partner centers the
export can hold. -/
def natDecStr (n : Nat) : String :=
  String.mk (natDecCh 40 n)

/-- Decimal rendering of an integer, as Python's `str`. -/
def intDecStr (i : Int) : String :=
  if i < 0 then "-" ++ natDecStr i.natAbs else natDecStr i.natAbs

/-- `str(cell)` as produced by pandas `astype(str)`: an integral float prints
its digits followed by `".0"`, NaN prints `"nan"`. -/
def cellStr : Cell → String
  | .int n => intDecStr n ++ ".0"
  | .text s => s
  | .blank => "nan"

/-- Python `str.split()` (split on whitespace runs, no empty pieces):
accumulator-based helper; `acc` holds the current word reversed. -/
def wordsChAux : List Char → List Char → List (List Char)
  | [], acc => if acc = [] then [] else [acc.reverse]
  | c :: cs, acc =>
    if pyWs c then
      if acc = [] then wordsChAux cs [] else acc.reverse :: wordsChAux cs []
    else wordsChAux cs (c :: acc)

/-- Python `str.split()` on a character list. -/
def wordsCh (l : List Char) : List (List Char) :=
  wordsChAux l []

/-- Substring test (`pandas str.contains(..., regex=False)` / Python `in`). -/
def containsSub (pat s : String) : Bool :=
  decide (pat.data <:+: s.data)

/-- Suffix test on character lists (Python `str.endswith`). -/
def endsWithCh (w suf : List Char) : Bool :=
  decide (suf <:+ w)

/-- Prefix test (Python `str.startswith` / pandas `str.startswith`). -/
def pyStartsWith (s pre : String) : Bool :=
  pre.data.isPrefixOf s.data

/-- `COST_ELEMENT_TO_ABBREV` of the source (only the integer keys are
reachable: the lookup key is the normalized integer cost element, so the
`'Labor Alloc.'` string key never matches). -/
def costElementAbbrevTable : List (Int × String) :=
  [(5590030, "AFUDC-Bo"),
   (5590031, "AFUDC-Eq"),
   (5091100, "Meals Ex"),
   (5091140, "Reimburs"),
   (5490000, "Contract"),
   (5490003, "Engr/Dsg"),
   (5490015, "Environm"),
   (6603001, "CONSTR"),
   (6603004, "ACQLIT"),
   (6603005, "ANLYST"),
   (6603006, "DRFT"),
   (6603023, "ENGSVC"),
   (6603024, "ENVSVC"),
   (6603027, "ENVPLN"),
   (6603048, "PLANSV"),
   (6603058, "TECHSV"),
   (6603059, "LNDENG"),
   (6603082, "MO-OT"),
   (6603083, "MO"),
   (6603150, "ADM-OT"),
   (6603195, "CORRSN"),
   (6603227, "LNDRTS"),
   (6603823, "BIOCUL"),
   (6608158, "XCON02"),
   (6608160, "XCON04")]

/-- Dictionary lookup on an integer-keyed association table. -/
def lookupInt (l : List (Int × String)) (n : Int) : Option String :=
  (l.find? fun p => p.1 == n).map fun p => p.2

def costElementToAbbrev (n : Int) : Option String :=
  lookupInt costElementAbbrevTable n

/-- `COST_ELEMENT_TO_COST_TYPE` of the source (integer keys only, as above). -/
def costElementToCostType (n : Int) : Option String :=
  if n = 5590030 then some ("AFUDC")
  else if n = 5590031 then some ("AFUDC")
  else if n = 5091100 then some ("Contracts")
  else if n = 5091140 then some ("Contracts")
  else if n = 5490000 then some ("Contracts")
  else if n = 5490003 then some ("Contracts")
  else if n = 5490015 then some ("Contracts")
  else none

/-- The `word_mapping` table inside `generate_resource_code`. -/
def wordMapping : String → Option String
  | "consulting" => some ("Consult")
  | "consult" => some ("Consult")
  | "engineering" => some ("Engr")
  | "engineer" => some ("Engr")
  | "environmental" => some ("Environ")
  | "environment" => some ("Environ")
  | "construction" => some ("Constr")
  | "contract" => some ("Contract")
  | "meals" => some ("Meals")
  | "reimbursed" => some ("Reimburs")
  | _ => none

/-- `COST_TYPE_TO_PREFIX` with the `DEFAULT_PREFIX` fallback
(`create_resource_file` line 513). -/
def costTypeLabel (ct : String) : String :=
  match ct with
  | "AFUDC" => "Actls. - AFUDC - "
  | "Contracts" => "Actls. - Cont. - "
  | "Labor" => "Actls. - Labr. - "
  | "Labor Alloc." => "Actls. - L.OH. - "
  | _ => "Actls. - Other. - "

/-- One entry of the WBS operations dictionary
(`wbs_operations_mapper.OPERATIONS_MAP`). -/
structure OpData where
  activity : String
  l2 : String
  l3 : String
deriving DecidableEq, Repr

/-- One entry of the cost-elements reference map handed to
`generate_resource_code` / `get_cost_type`.  The fields are the values of
the `'Cost Element Text'`, `'Level 1 Group'` and `'Grouping'` keys, with the
source's `.get(..., '')` defaults applied (an absent key is the empty
string). The map itself (`reference_data.build_cost_elements_map`) is not
part of the transformation source, so the embedding treats it as an
arbitrary parameter, exactly as the two functions do. -/
structure CEData where
  costElementText : String
  level1Group : String
  grouping : String
deriving DecidableEq, Repr

/-- A cost-elements map: lookup from normalized cost element to its
reference entry.  A `fun _ => none` map models both `cost_elements_map=None`
and a lookup miss, which the source treats identically. -/
def CEMap : Type := Int → Option CEData

/-- The cost-elements map as used when the reference data is absent
(`cost_elements_map=None`, the parameter default). -/
def cemNone : CEMap := fun _ => none

/-- `OPERATIONS_MAP` from `wbs_operations_mapper.py` (all 74 entries). -/
def OPERATIONS_MAP (op : Int) : Option OpData :=
  if op = 1010 then some ⟨("0101-1010A"), ("01"), ("01")⟩
  else if op = 1020 then some ⟨("0101-1020A"), ("01"), ("01")⟩
  else if op = 1030 then some ⟨("0101-1030A"), ("01"), ("01")⟩
  else if op = 1040 then some ⟨("0101-1040A"), ("01"), ("01")⟩
  else if op = 1100 then some ⟨("0102-1100A"), ("01"), ("02")⟩
  else if op = 1110 then some ⟨("0102-1110A"), ("01"), ("02")⟩
  else if op = 1120 then some ⟨("0102-1120A"), ("01"), ("02")⟩
  else if op = 1130 then some ⟨("0102-1130A"), ("01"), ("02")⟩
  else if op = 1140 then some ⟨("0102-1140A"), ("01"), ("02")⟩
  else if op = 1190 then some ⟨("0102-1190A"), ("01"), ("02")⟩
  else if op = 2010 then some ⟨("0201-2010A"), ("02"), ("01")⟩
  else if op = 2110 then some ⟨("0202-2110A"), ("02"), ("02")⟩
  else if op = 2210 then some ⟨("0203-2210A"), ("02"), ("03")⟩
  else if op = 3010 then some ⟨("0301-3010A"), ("03"), ("01")⟩
  else if op = 3020 then some ⟨("0301-3020A"), ("03"), ("01")⟩
  else if op = 3030 then some ⟨("0301-3030A"), ("03"), ("01")⟩
  else if op = 3100 then some ⟨("0302-3100A"), ("03"), ("02")⟩
  else if op = 3110 then some ⟨("0302-3110A"), ("03"), ("02")⟩
  else if op = 3150 then some ⟨("0302-3150A"), ("03"), ("02")⟩
  else if op = 3210 then some ⟨("0303-3210A"), ("03"), ("03")⟩
  else if op = 4010 then some ⟨("0401-4010A"), ("04"), ("01")⟩
  else if op = 4030 then some ⟨("0401-4030A"), ("04"), ("01")⟩
  else if op = 4040 then some ⟨("0401-4040A"), ("04"), ("01")⟩
  else if op = 4050 then some ⟨("0401-4050A"), ("04"), ("01")⟩
  else if op = 4060 then some ⟨("0401-4060A"), ("04"), ("01")⟩
  else if op = 4070 then some ⟨("0401-4070A"), ("04"), ("01")⟩
  else if op = 4110 then some ⟨("0402-4110A"), ("04"), ("02")⟩
  else if op = 4200 then some ⟨("0403-4200A"), ("04"), ("03")⟩
  else if op = 4210 then some ⟨("0403-4210A"), ("04"), ("03")⟩
  else if op = 4220 then some ⟨("0403-4220A"), ("04"), ("03")⟩
  else if op = 5010 then some ⟨("0501-5010A"), ("05"), ("01")⟩
  else if op = 5020 then some ⟨("0501-5020A"), ("05"), ("01")⟩
  else if op = 5030 then some ⟨("0502-5030A"), ("05"), ("02")⟩
  else if op = 5040 then some ⟨("0503-5040A"), ("05"), ("03")⟩
  else if op = 5050 then some ⟨("0503-5050A"), ("05"), ("03")⟩
  else if op = 5060 then some ⟨("0503-5060A"), ("05"), ("03")⟩
  else if op = 5070 then some ⟨("0503-5070A"), ("05"), ("03")⟩
  else if op = 5080 then some ⟨("0503-5080A"), ("05"), ("03")⟩
  else if op = 5085 then some ⟨("0503-5085A"), ("05"), ("03")⟩
  else if op = 5090 then some ⟨("0503-5090A"), ("05"), ("03")⟩
  else if op = 6000 then some ⟨("0504-6000A"), ("05"), ("04")⟩
  else if op = 6050 then some ⟨("0504-6050A"), ("05"), ("04")⟩
  else if op = 6100 then some ⟨("0504-6100A"), ("05"), ("04")⟩
  else if op = 6200 then some ⟨("0504-6200A"), ("05"), ("04")⟩
  else if op = 6300 then some ⟨("0504-6300A"), ("05"), ("04")⟩
  else if op = 6400 then some ⟨("0504-6400A"), ("05"), ("04")⟩
  else if op = 6500 then some ⟨("0504-6500A"), ("05"), ("04")⟩
  else if op = 6600 then some ⟨("0504-6600A"), ("05"), ("04")⟩
  else if op = 6700 then some ⟨("0504-6700A"), ("05"), ("04")⟩
  else if op = 6800 then some ⟨("0504-6800A"), ("05"), ("04")⟩
  else if op = 6900 then some ⟨("0504-6900A"), ("05"), ("04")⟩
  else if op = 7000 then some ⟨("0504-7000A"), ("05"), ("04")⟩
  else if op = 7100 then some ⟨("0504-7100A"), ("05"), ("04")⟩
  else if op = 7200 then some ⟨("0504-7200A"), ("05"), ("04")⟩
  else if op = 7300 then some ⟨("0504-7300A"), ("05"), ("04")⟩
  else if op = 7400 then some ⟨("0504-7400A"), ("05"), ("04")⟩
  else if op = 7500 then some ⟨("0504-7500A"), ("05"), ("04")⟩
  else if op = 7600 then some ⟨("0504-7600A"), ("05"), ("04")⟩
  else if op = 7700 then some ⟨("0504-7700A"), ("05"), ("04")⟩
  else if op = 7800 then some ⟨("0505-7800A"), ("05"), ("05")⟩
  else if op = 7900 then some ⟨("0505-7900A"), ("05"), ("05")⟩
  else if op = 8000 then some ⟨("0505-8000A"), ("05"), ("05")⟩
  else if op = 8100 then some ⟨("0505-8100A"), ("05"), ("05")⟩
  else if op = 8200 then some ⟨("0506-8200A"), ("05"), ("06")⟩
  else if op = 8300 then some ⟨("0506-8300A"), ("05"), ("06")⟩
  else if op = 8400 then some ⟨("0507-8400A"), ("05"), ("07")⟩
  else if op = 8500 then some ⟨("0507-8500A"), ("05"), ("07")⟩
  else if op = 8600 then some ⟨("0507-8600A"), ("05"), ("07")⟩
  else if op = 8700 then some ⟨("0508-8700A"), ("05"), ("08")⟩
  else if op = 8800 then some ⟨("0508-8800A"), ("05"), ("08")⟩
  else if op = 9010 then some ⟨("0601-9010A"), ("06"), ("01")⟩
  else if op = 9110 then some ⟨("0602-9110A"), ("06"), ("02")⟩
  else if op = 9120 then some ⟨("0602-9120A"), ("06"), ("02")⟩
  else if op = 9130 then some ⟨("0602-9130A"), ("06"), ("02")⟩
  else none

/-- `normalize_cost_element`: NaN → `None`; numeric → its integer value
(`int(float(x))`, exact for the integral values the export holds);
non-parseable text → `None` (the `except` branch).  Numeric text would be
parsed by Python's `float`; such cells are modelled as `Cell.int`. -/
def normalize_cost_element : Cell → Option Int
  | .int n => some n
  | .text _ => none
  | .blank => none

/-- Python truthiness of the normalized cost element (`if ... and ce_int:`):
present and non-zero. -/
def ceTruthy : Option Int → Bool
  | some n => n ≠ 0
  | none => false

/-- Suffix stripping inside `generate_resource_code`: remove the first of
`'services', 'service', 'svc', 'svcs'` that the word ends with (then `break`). -/
def stripKnownSuffix (w : List Char) : List Char :=
  if endsWithCh w ("services").data then w.take (w.length - 8)
  else if endsWithCh w ("service").data then w.take (w.length - 7)
  else if endsWithCh w ("svc").data then w.take (w.length - 3)
  else if endsWithCh w ("svcs").data then w.take (w.length - 4)
  else w

/-- Abbreviation derived from a reference `Cost Element Text`
(`generate_resource_code` lines 174-208; the source's `first_word` and
`clean_word` locals are inlined).  Returns `none` when the text splits into
no words (the enclosing `if words:` fails). -/
def abbrevFromText (text : String) : Option String :=
  match wordsCh text.data with
  | [] => none
  | w0 :: _ =>
    match wordMapping (String.mk (w0.map pyToLower)) with
    | some a => some a
    | none =>
      if stripKnownSuffix (w0.map pyToLower) ≠ [] then
        some (String.mk (pyCapitalizeCh ((stripKnownSuffix (w0.map pyToLower)).take 8)))
      else some (String.mk (pyCapitalizeCh (w0.take 8)))

/-- Tier 1 of the abbreviation fallback chain: the reference map's
`Cost Element Text`, guarded by the truthiness of the map, the normalized
cost element (`if cost_elements_map and ce_int:`) and the text itself. -/
def abbrevTier1 (ceInt : Option Int) (cem : CEMap) : Option String :=
  match ceInt with
  | some n =>
    if n ≠ 0 then
      match cem n with
      | some d => if d.costElementText = "" then none else abbrevFromText d.costElementText
      | none => none
    else none
  | none => none

/-- Tiers 1-2 of the abbreviation fallback chain: reference text, then the
hardcoded `COST_ELEMENT_TO_ABBREV` table (`if abbrev is None and ce_int:`). -/
def abbrevTier2 (ceInt : Option Int) (cem : CEMap) : Option String :=
  match abbrevTier1 ceInt cem with
  | some a => some a
  | none =>
    match ceInt with
    | some n => if n ≠ 0 then costElementToAbbrev n else none
    | none => none

/-- Tier 3: synthesize an abbreviation from the display name - first three
characters of each of the first two upper-cased words, or the first six
characters of the upper-cased name. -/
def abbrevFromName (name : String) : String :=
  match wordsCh (name.data.map pyToUpper) with
  | p0 :: p1 :: _ => String.mk (p0.take 3 ++ p1.take 3)
  | _ => String.mk ((name.data.map pyToUpper).take 6)

/-- The abbreviation chosen by `generate_resource_code`: reference text
first, then the hardcoded table, then a synthesis from the display name. -/
def resourceAbbrev (ceInt : Option Int) (name : String) (cem : CEMap) : String :=
  match abbrevTier2 ceInt cem with
  | some a => a
  | none => abbrevFromName name

/-- The partner-center part of a resource code: its integer digits when the
partner center is present and positive (`pd.notna(...) and ... > 0`), empty
otherwise. -/
def resourceSuffix (partner : Option Int) : String :=
  match partner with
  | some p => if 0 < p then natDecStr p.toNat else ""
  | none => ""

/-- `generate_resource_code`: `"6" + abbrev`, with the partner center's
integer digits appended when it is present and positive. -/
def generate_resource_code (ce : Cell) (partner : Option Int) (name : String) (cem : CEMap) : String :=
  "6" ++ resourceAbbrev (normalize_cost_element ce) name cem ++ resourceSuffix partner

/-- `get_cost_type` (the closure inside `aggregate_actuals`): reference-map
grouping tags, then the hardcoded table, then the `660`/`50` prefix rules,
else `Other`.  An unmatched grouping tag falls through to the later tiers,
exactly as the source's `if/elif` chain does. -/
def get_cost_type (ce : Cell) (cem : CEMap) : String :=
  let ceInt := normalize_cost_element ce
  let fromMap : Option String :=
    match ceInt with
    | some n =>
      if n ≠ 0 then
        match cem n with
        | some d =>
          if d.level1Group = "Contract" ∨ d.grouping = "Contract" then some ("Contracts")
          else if d.level1Group = "Labor" ∨ d.grouping = "Labor" then some ("Labor")
          else if d.level1Group = "OverHeads" ∨ d.grouping = "OverHeads" then some ("Labor Alloc.")
          else if d.level1Group = "Materials" ∨ d.grouping = "Materials" then some ("Other")
          else none
        | none => none
      else none
    | none => none
  match fromMap with
  | some ct => ct
  | none =>
    match ceInt with
    | some n =>
      if n ≠ 0 then
        match costElementToCostType n with
        | some ct => ct
        | none =>
          if pyStartsWith (intDecStr n) ("660") then "Labor"
          else if pyStartsWith (intDecStr n) ("50") then "Contracts"
          else "Other"
      else "Other"
    | none => "Other"

/-- One raw row of the SAP export, restricted to the columns the
transformation reads. -/
structure ExportRow where
  order : Option Int
  operation : Int
  costElement : Cell
  costElementName : String
  partnerCCtr : Cell
  totalQuantity : Rat
  valueRep : Rat
deriving DecidableEq, Repr

/-- One row of the Actuals Report (columns the program later reads, plus the
quantity/price/unit data; constant or NaN-only columns omitted). -/
structure ActualsRow where
  bidItem : Int
  activity : String
  resource : String
  quantity : Rat
  units : String
  unitPrice : Rat
  suppDesc : Cell
  description : String
  costType : String
deriving DecidableEq, Repr

/-- The grouping key of `aggregate_actuals`: Operation, Cost Element,
Partner-CCtr (NaN filled with 0, then keyed by its string form - the string
is injective on the cells that occur, so the filled cell itself is the key)
and the cost element name. -/
structure GroupKey where
  op : Int
  ce : Cell
  partner : Cell
  name : String
deriving DecidableEq, Repr

/-- `fillna(0)` on the partner cell. -/
def fillPartner : Cell → Cell
  | .blank => .int 0
  | c => c

/-- `pd.to_numeric(..., errors='coerce')` after grouping: numeric cells come
back as numbers, text becomes NaN (`none`). -/
def partnerNumOf : Cell → Option Int
  | .int n => some n
  | _ => none

/-- Epsilon gate used for overhead and AFUDC totals:
`pd.notna(v) and abs(v) > 1e-10` (a `Rat` total is never NaN). -/
def epsGate (v : Rat) : Bool :=
  (1 : Rat) / 10000000000 < |v|

/-- Overhead-source test: `astype(str).startswith('6010')`. -/
def isOverheadCE (c : Cell) : Bool :=
  pyStartsWith (cellStr c) ("6010")

/-- AFUDC-Borrowed total: `Operation == 1.0` rows with
`Cost Element == 5590030.0`, summed over `Val.in rep.cur.`. -/
def afudcBorrowedTotal (rows : List ExportRow) : Rat :=
  ((rows.filter fun r => decide (r.operation = 1) && decide (r.costElement = Cell.int 5590030)).map
    (fun r => r.valueRep)).sum

/-- AFUDC-Equity total: `Operation == 1.0` rows with
`Cost Element == 5590031.0`. -/
def afudcEquityTotal (rows : List ExportRow) : Rat :=
  ((rows.filter fun r => decide (r.operation = 1) && decide (r.costElement = Cell.int 5590031)).map
    (fun r => r.valueRep)).sum

/-- The per-operation Labor OH total (`overhead_by_operation`, with the
`.get(..., 0.0)` default folded in: an operation with no overhead rows has
total 0). -/
def overheadTotal (rows : List ExportRow) (op : Int) : Rat :=
  ((rows.filter fun r => isOverheadCE r.costElement && decide (r.operation = op)).map
    (fun r => r.valueRep)).sum

/-- The rows surviving both exclusion filters: `Operation != 1.0` and not an
overhead-source cost element. -/
def filteredRows (rows : List ExportRow) : List ExportRow :=
  rows.filter fun r => decide (r.operation ≠ 1) && !(isOverheadCE r.costElement)

/-- The grouping key of a row. -/
def rowKey (r : ExportRow) : GroupKey :=
  ⟨r.operation, r.costElement, fillPartner r.partnerCCtr, r.costElementName⟩

/-- First-occurrence deduplication (`seen` accumulates emitted values). -/
def firstSeenAux {α : Type} [DecidableEq α] (seen : List α) : List α → List α
  | [] => []
  | a :: l => if a ∈ seen then firstSeenAux seen l else a :: firstSeenAux (a :: seen) l

/-- First-occurrence deduplication of a list. -/
def firstSeen {α : Type} [DecidableEq α] (l : List α) : List α :=
  firstSeenAux [] l

/-- The distinct grouping keys, in first occurrence order. -/
def aggKeys (rows : List ExportRow) : List GroupKey :=
  firstSeen ((filteredRows rows).map rowKey)

/-- Summed `Total quantity` of a group. -/
def groupQty (rows : List ExportRow) (k : GroupKey) : Rat :=
  (((filteredRows rows).filter fun r => decide (rowKey r = k)).map (fun r => r.totalQuantity)).sum

/-- Summed `Val.in rep.cur.` of a group. -/
def groupVal (rows : List ExportRow) (k : GroupKey) : Rat :=
  (((filteredRows rows).filter fun r => decide (rowKey r = k)).map (fun r => r.valueRep)).sum

/-- The activity of an operation:
`operations_map.get(int(op), {}).get('activity', f'XXXX-{int(op)}A')`. -/
def activityOf (opsMap : Int → Option OpData) (op : Int) : String :=
  match opsMap op with
  | some d => d.activity
  | none => "XXXX-" ++ intDecStr op ++ "A"

/-- The aggregated Actuals row of one group, including the cost-type
normalization (`aggregate_actuals` lines 286-361): unit price is
value/quantity with the zero-quantity substitution, then non-Labor rows are
forced to quantity 1, unit `LS`, unit price = total value. -/
def mkGroupRow (rows : List ExportRow) (opsMap : Int → Option OpData) (cem : CEMap)
    (k : GroupKey) : ActualsRow :=
  let qty := groupQty rows k
  let val := groupVal rows k
  let resource := generate_resource_code k.ce (partnerNumOf k.partner) k.name cem
  let ct := get_cost_type k.ce cem
  let price0 := if qty ≠ 0 then val / qty else val
  { bidItem := k.op
    activity := activityOf opsMap k.op
    resource := resource
    quantity := if ct ≠ "Labor" then 1 else qty
    units := if ct ≠ "Labor" then "LS" else "HR"
    unitPrice := if ct ≠ "Labor" then val else price0
    suppDesc := k.ce
    description := k.name
    costType := ct }

/-- The aggregated (grouped and normalized) Actuals rows, before any
synthesized rows are appended. -/
def aggregateGrouped (rows : List ExportRow) (opsMap : Int → Option OpData) (cem : CEMap) :
    List ActualsRow :=
  (aggKeys rows).map (mkGroupRow rows opsMap cem)

/-- The (BidItem, Activity) pair of an Actuals row. -/
def rowPair (r : ActualsRow) : Int × String :=
  (r.bidItem, r.activity)

/-- The distinct (BidItem, Activity) pairs of the aggregated rows
(`drop_duplicates`, first occurrence order). -/
def ohPairs (grows : List ActualsRow) : List (Int × String) :=
  firstSeen (grows.map rowPair)

/-- A synthesized Labor OH row (`aggregate_actuals` lines 376-397). -/
def laborOHRow (b : Int) (a : String) (v : Rat) : ActualsRow :=
  { bidItem := b
    activity := a
    resource := "6Labor OH"
    quantity := 1
    units := "LS"
    unitPrice := v
    suppDesc := Cell.blank
    description := "Labor Alloc."
    costType := "Labor Alloc." }

/-- The synthesized Labor OH rows: one per distinct (BidItem, Activity) pair
of the aggregated set whose operation's overhead total passes the epsilon
gate. -/
def laborOHRowsOf (rows : List ExportRow) (opsMap : Int → Option OpData) (cem : CEMap) :
    List ActualsRow :=
  (ohPairs (aggregateGrouped rows opsMap cem)).filterMap fun p =>
    if epsGate (overheadTotal rows p.1) then
      some (laborOHRow p.1 p.2 (overheadTotal rows p.1))
    else none

/-- The table the AFUDC block inspects for BidItem membership: aggregated
rows plus the just-appended Labor OH rows. -/
def preAfudc (rows : List ExportRow) (opsMap : Int → Option OpData) (cem : CEMap) :
    List ActualsRow :=
  aggregateGrouped rows opsMap cem ++ laborOHRowsOf rows opsMap cem

/-- The derived AFUDC activity: flip the second-to-last character of the
base activity from `'0'` to `'1'`; reuse the base unchanged otherwise.
(A base shorter than two characters would raise `IndexError` in Python; it
cannot arise from the operations dictionary and is modelled as reuse.) -/
def afudcActivityOf (base : String) : String :=
  let cs := base.data
  if 2 ≤ cs.length then
    if cs.getD (cs.length - 2) ' ' = '0' then
      String.mk (cs.take (cs.length - 2) ++ '1' :: cs.drop (cs.length - 1))
    else base
  else base

/-- A synthesized AFUDC row (`aggregate_actuals` lines 422-469). -/
def afudcRow (act : String) (res : String) (v : Rat) (ceCode : Int) (descr : String) : ActualsRow :=
  { bidItem := 1010
    activity := act
    resource := res
    quantity := 1
    units := "LS"
    unitPrice := v
    suppDesc := Cell.int ceCode
    description := descr
    costType := "AFUDC" }

/-- The base activity used for the AFUDC rows:
`operations_map.get(1010, {}).get('activity', '0101-1010A')`. -/
def afudcBaseActivity (opsMap : Int → Option OpData) : String :=
  match opsMap 1010 with
  | some d => d.activity
  | none => "0101-1010A"

/-- The synthesized AFUDC rows: gated on a non-zero borrowed or equity total
and on BidItem 1010 being present; each of the two rows is further gated on
its own total. -/
def afudcRowsOf (rows : List ExportRow) (opsMap : Int → Option OpData) (cem : CEMap) :
    List ActualsRow :=
  if (epsGate (afudcBorrowedTotal rows) || epsGate (afudcEquityTotal rows))
      && decide (1010 ∈ (preAfudc rows opsMap cem).map (fun r => r.bidItem)) then
    (if epsGate (afudcBorrowedTotal rows) then
      [afudcRow (afudcActivityOf (afudcBaseActivity opsMap)) ("6AFUDC-Bo")
        (afudcBorrowedTotal rows) 5590030 ("AFUDC-Borrowed")] else [])
      ++ (if epsGate (afudcEquityTotal rows) then
        [afudcRow (afudcActivityOf (afudcBaseActivity opsMap)) ("6AFUDC-Eq")
          (afudcEquityTotal rows) 5590031 ("AFUDC-Equity")] else [])
  else []

/-- Strict lexicographic comparison of character lists (the string order
pandas sorts by, over the ASCII data in play). -/
def strLtCh : List Char → List Char → Bool
  | [], [] => false
  | [], _ :: _ => true
  | _ :: _, [] => false
  | a :: as, b :: bs => if a < b then true else if b < a then false else strLtCh as bs

/-- Strict lexicographic string comparison. -/
def strLtB (a b : String) : Bool :=
  strLtCh a.data b.data

/-- The final sort key comparison:
`sort_values(['BidItem', 'Activity', 'Cost Type', 'Resource'])`. -/
def rowLe (a b : ActualsRow) : Bool :=
  if a.bidItem ≠ b.bidItem then decide (a.bidItem ≤ b.bidItem)
  else if a.activity ≠ b.activity then strLtB a.activity b.activity
  else if a.costType ≠ b.costType then strLtB a.costType b.costType
  else !(strLtB b.resource a.resource)

/-- `aggregate_actuals`: grouped rows, synthesized Labor OH rows, synthesized
AFUDC rows, sorted by BidItem / Activity / Cost Type / Resource.  (Sorting
is modelled with insertion sort, which the kernel can evaluate; every
property below is invariant under the permutation, and the sort key chain
matches the source's `sort_values` columns.) -/
def aggregate_actuals (rows : List ExportRow) (opsMap : Int → Option OpData) (cem : CEMap) :
    List ActualsRow :=
  List.insertionSort (fun x y => rowLe x y = true) (preAfudc rows opsMap cem ++ afudcRowsOf rows opsMap cem)

/-- One entry of the Resource File (the two populated columns). -/
structure ResourceEntry where
  code : String
  description : String
deriving DecidableEq, Repr

/-- `drop_duplicates(subset=['Resource'], keep='first')`: keep the first row
per resource code. -/
def dedupByRes (seen : List String) : List ActualsRow → List ActualsRow
  | [] => []
  | r :: rs =>
    if r.resource ∈ seen then dedupByRes seen rs
    else r :: dedupByRes (r.resource :: seen) rs

/-- The Resource File entry built from an Actuals row: cost-type label
prefix, then (for Labor) the resource code without its leading `"6"`, or
(otherwise) the row's description. -/
def mkResourceEntry (r : ActualsRow) : ResourceEntry :=
  let descr :=
    if r.costType = "Labor" then
      if pyStartsWith r.resource ("6") then String.mk (r.resource.data.drop 1) else r.resource
    else r.description
  { code := r.resource, description := costTypeLabel r.costType ++ descr }

/-- `create_resource_file`: one entry per distinct resource code (first
occurrence wins), built by `mkResourceEntry`. -/
def create_resource_file (actuals : List ActualsRow) : List ResourceEntry :=
  (dedupByRes [] actuals).map mkResourceEntry

/-- One entry of the Actual BoE sheet. -/
structure BoeEntry where
  bidItem : Int
  activity : String
  notes : String
deriving DecidableEq, Repr

/-- The overhead-resource test of `create_boe_notes`:
`Resource.str.contains('Labor OH', regex=False)`. -/
def isLaborOHRes (r : ActualsRow) : Bool :=
  containsSub ("Labor OH") r.resource

/-- Number of fractional decimal digits needed to write `q` exactly, if at
most 25 suffice. -/
def fracDigitsLen (q : Rat) : Option Nat :=
  (List.range 26).find? fun k => decide (k ≠ 0) && decide ((q.den : Int) ∣ (10 : Int) ^ k)

/-- Decimal rendering of a non-integral rational: sign, integer digits,
point, fractional digits.  (The source prints a Python float here; on the
finite decimals that column holds the two renderings agree.) -/
def ratDecimalStr (q : Rat) : String :=
  match fracDigitsLen q with
  | some k =>
    let scaled : Nat := q.num.natAbs * 10 ^ k / q.den
    let ds := natDecCh (scaled + 1) scaled
    let ds := if ds.length < k + 1 then List.replicate (k + 1 - ds.length) '0' ++ ds else ds
    (if q.num < 0 then "-" else "") ++ String.mk (ds.take (ds.length - k)) ++ "." ++ String.mk (ds.drop (ds.length - k))
  | none => intDecStr q.num ++ "/" ++ natDecStr q.den

/-- The quantity rendering of `create_boe_notes`: a bare integer when the
quantity is whole (`quantity == int(quantity)`), its decimal form otherwise. -/
def qtyStr (q : Rat) : String :=
  if q.den = 1 then intDecStr q.num else ratDecimalStr q

/-- One notes line of `create_boe_notes`: resource code without its leading
`"6"`, quantity, and the fixed projection text. -/
def boeLine (r : ActualsRow) : String :=
  (if pyStartsWith r.resource ("6") then String.mk (r.resource.data.drop 1) else r.resource)
    ++ ": " ++ qtyStr r.quantity
    ++ " MH Actuals to date, Projected an additional 0 MH for the remainder of the Activity"

/-- `create_boe_notes`: per (BidItem, Activity) group with at least one
Labor row, a header line with the date followed by one line per Labor,
non-overhead resource.  The current date string is a parameter (see the
module comment). -/
def create_boe_notes (dateStr : String) (actuals : List ActualsRow) : List BoeEntry :=
  (firstSeen (actuals.map rowPair)).filterMap fun p =>
    if (actuals.filter fun r => decide (r.bidItem = p.1 ∧ r.activity = p.2)).any
        (fun r => r.costType == "Labor") then
      some ⟨p.1, p.2, String.intercalate ("\n") ((dateStr ++ ": ")
        :: (((actuals.filter fun r => decide (r.bidItem = p.1 ∧ r.activity = p.2)).filter
              fun r => (r.costType == "Labor") && !(isLaborOHRes r)).map boeLine))⟩
    else none

/-- `read_sap_export`: drop rows with a null `Order`; the banner print then
indexes `unique()[0]`, which raises `IndexError` when nothing remains. -/
def read_sap_export (rows : List ExportRow) : Except String (List ExportRow) :=
  if (rows.filter fun r => r.order.isSome) = [] then Except.error ("IndexError")
  else Except.ok (rows.filter fun r => r.order.isSome)

/-- `get_order_from_export`: error when no row has an order, else the first
order value (`int(df_clean['Order'].unique()[0])`); no uniformity check. -/
def get_order_from_export (rows : List ExportRow) : Except String Int :=
  match (rows.filter fun r => r.order.isSome).filterMap (fun r => r.order) with
  | [] => Except.error ("No valid Order found in SAP export")
  | o :: _ => Except.ok o

theorem pyToLower_ws (c : Char) : pyWs (pyToLower c) = pyWs c := by
  unfold pyToLower
  split <;> first | decide | rfl

theorem pyToUpper_ws (c : Char) : pyWs (pyToUpper c) = pyWs c := by
  unfold pyToUpper
  split <;> first | decide | rfl

theorem pyToUpper_ne_b (c : Char) : pyToUpper c ≠ 'b' := by
  unfold pyToUpper
  split <;> first | decide | (intro h; subst h; simp_all)

theorem decDigit_mem (n : Nat) (h : n < 10) : decDigit n ∈ ("0123456789").data := by
  revert n
  decide

theorem natDecCh_digits (fuel : Nat) : ∀ (n : Nat), ∀ c ∈ natDecCh fuel n, c ∈ ("0123456789").data := by
  induction fuel with
  | zero => intro n c hc; simp [natDecCh] at hc
  | succ f ih =>
    intro n c hc
    unfold natDecCh at hc
    split at hc
    · simp only [List.mem_singleton] at hc
      subst hc
      exact decDigit_mem n (by omega)
    · rcases List.mem_append.1 hc with h | h
      · exact ih _ c h
      · simp only [List.mem_singleton] at h
        subst h
        exact decDigit_mem _ (Nat.mod_lt _ (by omega))

theorem digit_not_ws {c : Char} (h : c ∈ ("0123456789").data) : pyWs c = false := by
  fin_cases h <;> decide

theorem digit_ne_b {c : Char} (h : c ∈ ("0123456789").data) : c ≠ 'b' := by
  fin_cases h <;> decide

theorem wordsChAux_nows (l : List Char) :
    ∀ acc, (∀ c ∈ acc, pyWs c = false) →
      ∀ w ∈ wordsChAux l acc, ∀ c ∈ w, pyWs c = false := by
  induction l with
  | nil =>
    intro acc hacc w hw c hc
    unfold wordsChAux at hw
    split at hw
    · simp at hw
    · simp only [List.mem_singleton] at hw
      subst hw
      exact hacc c (List.mem_reverse.1 hc)
  | cons b l ih =>
    intro acc hacc w hw c hc
    unfold wordsChAux at hw
    split at hw
    · split at hw
      · exact ih [] (by simp) w hw c hc
      · rcases List.mem_cons.1 hw with h | h
        · subst h
          exact hacc c (List.mem_reverse.1 hc)
        · exact ih [] (by simp) w h c hc
    · refine ih (b :: acc) ?_ w hw c hc
      intro d hd
      rcases List.mem_cons.1 hd with h | h
      · subst h
        simp_all
      · exact hacc d h

theorem wordsCh_nows (l : List Char) (w : List Char) (hw : w ∈ wordsCh l) :
    ∀ c ∈ w, pyWs c = false :=
  wordsChAux_nows l [] (by simp) w hw

theorem pyCapitalizeCh_nows (l : List Char) (hl : ∀ c ∈ l, pyWs c = false) :
    ∀ c ∈ pyCapitalizeCh l, pyWs c = false := by
  cases l with
  | nil => simp [pyCapitalizeCh]
  | cons b bs =>
    intro c hc
    rcases List.mem_cons.1 hc with h | h
    · subst h
      rw [pyToUpper_ws]
      exact hl b (by simp)
    · rcases List.mem_map.1 h with ⟨d, hd, hdc⟩
      subst hdc
      rw [pyToLower_ws]
      exact hl d (List.mem_cons_of_mem _ hd)

/-- The disjunction that rules a `Labor OH` substring out of a resource
code: the abbreviation contains no whitespace, or contains no `'b'`. -/
def goodAb (s : String) : Bool :=
  s.data.all (fun c => !pyWs c) || s.data.all (fun c => c ≠ 'b')

theorem wordMapping_goodAb (w : String) (a : String) (h : wordMapping w = some a) :
    goodAb a = true := by
  unfold wordMapping at h
  split at h <;>
    first
      | exact Option.noConfusion h
      | (injection h with h; subst h; decide)

theorem costElementToAbbrev_goodAb (n : Int) (a : String) (h : costElementToAbbrev n = some a) :
    goodAb a = true := by
  unfold costElementToAbbrev lookupInt at h
  rcases Option.map_eq_some'.1 h with ⟨p, hp, hpa⟩
  have hmem := List.mem_of_find?_eq_some hp
  subst hpa
  fin_cases hmem <;> decide

theorem nows_goodAb (s : String) (h : ∀ c ∈ s.data, pyWs c = false) : goodAb s = true := by
  unfold goodAb
  rw [Bool.or_eq_true]
  left
  rw [List.all_eq_true]
  intro c hc
  simp [h c hc]

theorem nob_goodAb (s : String) (h : ∀ c ∈ s.data, c ≠ 'b') : goodAb s = true := by
  unfold goodAb
  rw [Bool.or_eq_true]
  right
  rw [List.all_eq_true]
  intro c hc
  simp [h c hc]

theorem abbrevFromText_goodAb (text : String) (a : String) (h : abbrevFromText text = some a) :
    goodAb a = true := by
  unfold abbrevFromText at h
  split at h
  · cases h
  · rename_i w0 ws hw
    have hw0 : ∀ c ∈ w0, pyWs c = false := by
      intro c hc
      exact wordsCh_nows text.data w0 (by rw [hw]; simp) c hc
    split at h
    · rename_i a' ha'
      injection h with h
      subst h
      exact wordMapping_goodAb _ _ ha'
    · have hfw : ∀ c ∈ w0.map pyToLower, pyWs c = false := by
        intro c hc
        rcases List.mem_map.1 hc with ⟨d, hd, hdc⟩
        subst hdc
        rw [pyToLower_ws]
        exact hw0 d hd
      split at h
      · injection h with h
        subst h
        refine nows_goodAb _ ?_
        intro c hc
        refine pyCapitalizeCh_nows _ ?_ c hc
        intro d hd
        have : d ∈ stripKnownSuffix (w0.map pyToLower) := List.take_subset _ _ hd
        have hsub : stripKnownSuffix (w0.map pyToLower) ⊆ w0.map pyToLower := by
          unfold stripKnownSuffix
          split
          · exact List.take_subset _ _
          · split
            · exact List.take_subset _ _
            · split
              · exact List.take_subset _ _
              · split
                · exact List.take_subset _ _
                · exact fun x hx => hx
        exact hfw d (hsub this)
      · injection h with h
        subst h
        refine nows_goodAb _ ?_
        intro c hc
        refine pyCapitalizeCh_nows _ ?_ c hc
        intro d hd
        exact hw0 d (List.take_subset _ _ hd)

theorem abbrevTier1_goodAb (ceInt : Option Int) (cem : CEMap) (a : String)
    (h : abbrevTier1 ceInt cem = some a) : goodAb a = true := by
  unfold abbrevTier1 at h
  split at h
  · split at h
    · split at h
      · split at h
        · exact Option.noConfusion h
        · exact abbrevFromText_goodAb _ _ h
      · exact Option.noConfusion h
    · exact Option.noConfusion h
  · exact Option.noConfusion h

theorem abbrevTier2_goodAb (ceInt : Option Int) (cem : CEMap) (a : String)
    (h : abbrevTier2 ceInt cem = some a) : goodAb a = true := by
  unfold abbrevTier2 at h
  split at h
  · rename_i a' ha'
    injection h with h
    subst h
    exact abbrevTier1_goodAb _ _ _ ha'
  · split at h
    · split at h
      · exact costElementToAbbrev_goodAb _ _ h
      · exact Option.noConfusion h
    · exact Option.noConfusion h

theorem abbrevFromName_goodAb (name : String) : goodAb (abbrevFromName name) = true := by
  unfold abbrevFromName
  split
  · rename_i p0 p1 rest hparts
    refine nows_goodAb _ ?_
    intro c hc
    rcases List.mem_append.1 hc with h | h
    · exact wordsCh_nows _ p0 (by rw [hparts]; simp) c (List.take_subset _ _ h)
    · exact wordsCh_nows _ p1 (by rw [hparts]; simp) c (List.take_subset _ _ h)
  · refine nob_goodAb _ ?_
    intro c hc
    have hm : c ∈ (name.data.map pyToUpper) := List.take_subset _ _ hc
    rcases List.mem_map.1 hm with ⟨d, _, hdc⟩
    subst hdc
    exact pyToUpper_ne_b d

theorem resourceAbbrev_goodAb (ceInt : Option Int) (name : String) (cem : CEMap) :
    goodAb (resourceAbbrev ceInt name cem) = true := by
  unfold resourceAbbrev
  split
  · rename_i a ha
    exact abbrevTier2_goodAb _ _ _ ha
  · exact abbrevFromName_goodAb name

theorem resourceSuffix_digits (partner : Option Int) :
    ∀ c ∈ (resourceSuffix partner).data, c ∈ ("0123456789").data := by
  unfold resourceSuffix
  split
  · split
    · intro c hc
      exact natDecCh_digits _ _ c hc
    · intro c hc
      simp at hc
  · intro c hc
    simp at hc

theorem no_laborOH_of_goodAb (ab : String) (suffix : List Char)
    (hab : goodAb ab = true) (hsuf : ∀ c ∈ suffix, c ∈ ("0123456789").data) :
    ¬ (("Labor OH").data <:+: '6' :: (ab.data ++ suffix)) := by
  intro hinf
  have hsubset := hinf.subset
  unfold goodAb at hab
  rw [Bool.or_eq_true] at hab
  rcases hab with h | h
  · have hsp : (' ' : Char) ∈ '6' :: (ab.data ++ suffix) := hsubset (by decide)
    rcases List.mem_cons.1 hsp with h6 | hm
    · exact absurd h6 (by decide)
    · rcases List.mem_append.1 hm with hma | hms
      · rw [List.all_eq_true] at h
        have hx := h ' ' hma
        simp [pyWs] at hx
      · exact absurd (digit_not_ws (hsuf _ hms)) (by decide)
  · have hb : ('b' : Char) ∈ '6' :: (ab.data ++ suffix) := hsubset (by decide)
    rcases List.mem_cons.1 hb with h6 | hm
    · exact absurd h6 (by decide)
    · rcases List.mem_append.1 hm with hma | hms
      · rw [List.all_eq_true] at h
        have hx := h 'b' hma
        simp at hx
      · exact absurd rfl (digit_ne_b (hsuf _ hms))

/-- No generated resource code contains the substring `"Labor OH"`: the
synthesized Labor OH resource can never collide with a real one. -/
theorem generate_no_laborOH (ce : Cell) (partner : Option Int) (name : String) (cem : CEMap) :
    containsSub ("Labor OH") (generate_resource_code ce partner name cem) = false := by
  unfold containsSub generate_resource_code
  rw [decide_eq_false_iff_not]
  have hdata : ("6" ++ resourceAbbrev (normalize_cost_element ce) name cem ++ resourceSuffix partner).data
      = '6' :: ((resourceAbbrev (normalize_cost_element ce) name cem).data ++ (resourceSuffix partner).data) := by
    simp [String.data_append]
  rw [hdata]
  exact no_laborOH_of_goodAb _ _ (resourceAbbrev_goodAb _ _ _) (resourceSuffix_digits partner)

/-- In particular a generated resource code is never the Labor OH resource
itself. -/
theorem generate_ne_laborOHRes (ce : Cell) (partner : Option Int) (name : String) (cem : CEMap) :
    generate_resource_code ce partner name cem ≠ "6Labor OH" := by
  intro h
  have h1 := generate_no_laborOH ce partner name cem
  rw [h] at h1
  exact absurd h1 (by decide)

theorem mem_firstSeenAux {α : Type} [DecidableEq α] (l : List α) :
    ∀ (seen : List α) (a : α), a ∈ firstSeenAux seen l ↔ (a ∈ l ∧ a ∉ seen) := by
  induction l with
  | nil =>
    intro seen a
    simp [firstSeenAux]
  | cons b l ih =>
    intro seen a
    by_cases hb : b ∈ seen
    · rw [show firstSeenAux seen (b :: l) = firstSeenAux seen l from by simp [firstSeenAux, hb]]
      rw [ih]
      simp only [List.mem_cons]
      constructor
      · rintro ⟨h1, h2⟩
        exact ⟨Or.inr h1, h2⟩
      · rintro ⟨h1 | h1, h2⟩
        · subst h1
          exact absurd hb h2
        · exact ⟨h1, h2⟩
    · rw [show firstSeenAux seen (b :: l) = b :: firstSeenAux (b :: seen) l from by
        simp [firstSeenAux, hb]]
      simp only [List.mem_cons, ih]
      constructor
      · rintro (h | ⟨h1, h2⟩)
        · subst h
          exact ⟨Or.inl rfl, hb⟩
        · exact ⟨Or.inr h1, fun hs => h2 (Or.inr hs)⟩
      · rintro ⟨h1 | h1, h2⟩
        · exact Or.inl h1
        · by_cases hab : a = b
          · exact Or.inl hab
          · refine Or.inr ⟨h1, fun hs => ?_⟩
            rcases hs with h | h
            · exact hab h
            · exact h2 h

theorem mem_firstSeen {α : Type} [DecidableEq α] (l : List α) (a : α) :
    a ∈ firstSeen l ↔ a ∈ l := by
  unfold firstSeen
  rw [mem_firstSeenAux]
  simp

theorem nodup_firstSeenAux {α : Type} [DecidableEq α] (l : List α) :
    ∀ seen : List α, (firstSeenAux seen l).Nodup := by
  induction l with
  | nil =>
    intro seen
    simp [firstSeenAux]
  | cons b l ih =>
    intro seen
    by_cases hb : b ∈ seen
    · rw [show firstSeenAux seen (b :: l) = firstSeenAux seen l from by simp [firstSeenAux, hb]]
      exact ih seen
    · rw [show firstSeenAux seen (b :: l) = b :: firstSeenAux (b :: seen) l from by
        simp [firstSeenAux, hb]]
      refine List.nodup_cons.2 ⟨fun hmem => ?_, ih (b :: seen)⟩
      have := (mem_firstSeenAux l (b :: seen) b).1 hmem
      exact this.2 (by simp)

theorem nodup_firstSeen {α : Type} [DecidableEq α] (l : List α) : (firstSeen l).Nodup :=
  nodup_firstSeenAux l []

theorem mem_laborOHRowsOf (rows : List ExportRow) (opsMap : Int → Option OpData) (cem : CEMap)
    (r : ActualsRow) (hr : r ∈ laborOHRowsOf rows opsMap cem) :
    ∃ p, p ∈ ohPairs (aggregateGrouped rows opsMap cem) ∧
      epsGate (overheadTotal rows p.1) = true ∧ r = laborOHRow p.1 p.2 (overheadTotal rows p.1) := by
  unfold laborOHRowsOf at hr
  rcases List.mem_filterMap.1 hr with ⟨p, hp, hpr⟩
  refine ⟨p, hp, ?_, ?_⟩
  · by_cases hg : epsGate (overheadTotal rows p.1)
    · exact hg
    · simp [hg] at hpr
  · by_cases hg : epsGate (overheadTotal rows p.1)
    · simp [hg] at hpr
      exact hpr.symm
    · simp [hg] at hpr

theorem mem_afudcRowsOf (rows : List ExportRow) (opsMap : Int → Option OpData) (cem : CEMap)
    (r : ActualsRow) (hr : r ∈ afudcRowsOf rows opsMap cem) :
    r.bidItem = 1010 ∧ r.costType = "AFUDC" ∧ r.quantity = 1 ∧ r.units = "LS" ∧
      r.activity = afudcActivityOf (afudcBaseActivity opsMap) ∧
      (r.resource = "6AFUDC-Bo" ∨ r.resource = "6AFUDC-Eq") := by
  unfold afudcRowsOf at hr
  split at hr
  · rcases List.mem_append.1 hr with h | h
    · split at h
      · simp only [List.mem_singleton] at h
        subst h
        exact ⟨rfl, rfl, rfl, rfl, rfl, Or.inl rfl⟩
      · simp at h
    · split at h
      · simp only [List.mem_singleton] at h
        subst h
        exact ⟨rfl, rfl, rfl, rfl, rfl, Or.inr rfl⟩
      · simp at h
  · simp at hr

theorem mem_aggregateGrouped (rows : List ExportRow) (opsMap : Int → Option OpData) (cem : CEMap)
    (r : ActualsRow) (hr : r ∈ aggregateGrouped rows opsMap cem) :
    ∃ k, k ∈ aggKeys rows ∧ r = mkGroupRow rows opsMap cem k := by
  rcases List.mem_map.1 hr with ⟨k, hk, hkr⟩
  exact ⟨k, hk, hkr.symm⟩

/-- The resource of an aggregated (non-synthesized) row is a generated code. -/
theorem aggregateGrouped_resource (rows : List ExportRow) (opsMap : Int → Option OpData)
    (cem : CEMap) (r : ActualsRow) (hr : r ∈ aggregateGrouped rows opsMap cem) :
    ∃ ce partner name, r.resource = generate_resource_code ce partner name cem := by
  rcases mem_aggregateGrouped rows opsMap cem r hr with ⟨k, _, hk⟩
  subst hk
  exact ⟨k.ce, partnerNumOf k.partner, k.name, rfl⟩

/-- An aggregated row never carries the synthesized Labor OH resource. -/
theorem aggregateGrouped_no_laborOH (rows : List ExportRow) (opsMap : Int → Option OpData)
    (cem : CEMap) (r : ActualsRow) (hr : r ∈ aggregateGrouped rows opsMap cem) :
    isLaborOHRes r = false := by
  rcases aggregateGrouped_resource rows opsMap cem r hr with ⟨ce, partner, name, hres⟩
  unfold isLaborOHRes
  rw [hres]
  exact generate_no_laborOH ce partner name cem

theorem countP_laborOH (X : List ExportRow) (b : Int) (a : String) (pred : ActualsRow → Bool)
    (hpred : ∀ p : Int × String,
      pred (laborOHRow p.1 p.2 (overheadTotal X p.1)) = decide (p = (b, a)))
    (ps : List (Int × String)) (hnd : ps.Nodup) :
    ((ps.filterMap fun p =>
        if epsGate (overheadTotal X p.1) then
          some (laborOHRow p.1 p.2 (overheadTotal X p.1))
        else none).countP pred)
      = if (b, a) ∈ ps ∧ epsGate (overheadTotal X b) = true then 1 else 0 := by
  induction ps with
  | nil => simp
  | cons p ps ih =>
    rcases List.nodup_cons.1 hnd with ⟨hp, hnd'⟩
    have ih' := ih hnd'
    by_cases hg : epsGate (overheadTotal X p.1) = true
    · rw [List.filterMap_cons]
      simp only [hg, if_true, List.countP_cons, ih', hpred p]
      by_cases hpb : p = (b, a)
      · have hb1 : p.1 = b := by rw [hpb]
        have hnotin : (b, a) ∉ ps := by
          rw [← hpb]
          exact hp
        simp [hpb, hnotin, hb1 ▸ hg]
      · have : ((b, a) ∈ p :: ps) ↔ ((b, a) ∈ ps) := by
          simp only [List.mem_cons]
          constructor
          · rintro (h | h)
            · exact absurd h.symm hpb
            · exact h
          · exact Or.inr
        simp [hpb, this]
    · rw [List.filterMap_cons]
      simp only [hg, if_false]
      by_cases hpb : p = (b, a)
      · have hb1 : p.1 = b := by rw [hpb]
        have hgb : ¬ (epsGate (overheadTotal X b) = true) := by
          rw [← hb1]
          exact hg
        simp [hgb, ih']
      · have : ((b, a) ∈ p :: ps) ↔ ((b, a) ∈ ps) := by
          simp only [List.mem_cons]
          constructor
          · rintro (h | h)
            · exact absurd h.symm hpb
            · exact h
          · exact Or.inr
        simp [this, ih']

theorem aggregate_countP_eq (X : List ExportRow) (opsMap : Int → Option OpData) (cem : CEMap)
    (pred : ActualsRow → Bool) :
    (aggregate_actuals X opsMap cem).countP pred
      = (aggregateGrouped X opsMap cem).countP pred
        + (laborOHRowsOf X opsMap cem).countP pred
        + (afudcRowsOf X opsMap cem).countP pred := by
  unfold aggregate_actuals preAfudc
  rw [(List.perm_insertionSort (fun x y => rowLe x y = true) _).countP_eq]
  rw [List.countP_append, List.countP_append]

theorem aggregateGrouped_res_ne (rows : List ExportRow) (opsMap : Int → Option OpData)
    (cem : CEMap) (r : ActualsRow) (hr : r ∈ aggregateGrouped rows opsMap cem) :
    r.resource ≠ "6Labor OH" := by
  rcases aggregateGrouped_resource rows opsMap cem r hr with ⟨ce, partner, name, hres⟩
  rw [hres]
  exact generate_ne_laborOHRes ce partner name cem

theorem countP_aggregate_laborOH (X : List ExportRow) (opsMap : Int → Option OpData)
    (cem : CEMap) (b : Int) (a : String) (pred : ActualsRow → Bool)
    (hpred : ∀ p : Int × String,
      pred (laborOHRow p.1 p.2 (overheadTotal X p.1)) = decide (p = (b, a)))
    (hres : ∀ r, pred r = true → r.resource = "6Labor OH") :
    (aggregate_actuals X opsMap cem).countP pred
      = if (b, a) ∈ (aggregateGrouped X opsMap cem).map rowPair
            ∧ epsGate (overheadTotal X b) = true then 1 else 0 := by
  rw [aggregate_countP_eq]
  have hg0 : (aggregateGrouped X opsMap cem).countP pred = 0 := by
    rw [List.countP_eq_zero]
    intro r hr hpr
    exact aggregateGrouped_res_ne X opsMap cem r hr (hres r hpr)
  have ha0 : (afudcRowsOf X opsMap cem).countP pred = 0 := by
    rw [List.countP_eq_zero]
    intro r hr hpr
    rcases mem_afudcRowsOf X opsMap cem r hr with ⟨_, _, _, _, _, hR | hR⟩
    · rw [hres r hpr] at hR
      exact absurd hR (by decide)
    · rw [hres r hpr] at hR
      exact absurd hR (by decide)
  have hoh : (laborOHRowsOf X opsMap cem).countP pred
      = if (b, a) ∈ (aggregateGrouped X opsMap cem).map rowPair
            ∧ epsGate (overheadTotal X b) = true then 1 else 0 := by
    unfold laborOHRowsOf
    rw [countP_laborOH X b a pred hpred (ohPairs (aggregateGrouped X opsMap cem))
      (nodup_firstSeen _)]
    exact if_congr (and_congr_left' (by unfold ohPairs; exact mem_firstSeen _ _)) rfl rfl
  rw [hg0, ha0, hoh]
  omega

/-- C1: for every (bid-item, activity) pair of the aggregated set the
transform emits exactly one synthesized Labor OH (`Labor Alloc.`) lump-sum
row - with unit price equal to the precomputed overhead total of that
operation, quantity 1 and unit LS - when the overhead total passes the
epsilon gate, and no such row otherwise; pairs absent from the aggregated
set never receive one.  No Labor hypothesis appears: the rule applies to
every pair. -/
theorem C1_labor_overhead_emission (X : List ExportRow) (opsMap : Int → Option OpData)
    (cem : CEMap) (b : Int) (a : String) :
    ((aggregate_actuals X opsMap cem).countP fun r =>
        decide (r.bidItem = b) && decide (r.activity = a) && decide (r.resource = "6Labor OH"))
      = (if (b, a) ∈ (aggregateGrouped X opsMap cem).map rowPair
            ∧ epsGate (overheadTotal X b) = true then 1 else 0)
    ∧ ((aggregate_actuals X opsMap cem).countP fun r =>
        decide (r.bidItem = b) && decide (r.activity = a) && decide (r.resource = "6Labor OH")
          && decide (r.unitPrice = overheadTotal X b) && decide (r.quantity = 1)
          && decide (r.units = "LS") && decide (r.costType = "Labor Alloc."))
      = (if (b, a) ∈ (aggregateGrouped X opsMap cem).map rowPair
            ∧ epsGate (overheadTotal X b) = true then 1 else 0) := by
  constructor
  · refine countP_aggregate_laborOH X opsMap cem b a _ ?_ ?_
    · intro p
      rcases p with ⟨x, y⟩
      by_cases h1 : x = b <;> by_cases h2 : y = a <;>
        simp [laborOHRow, h1, h2, Prod.ext_iff]
    · intro r hr
      simp only [Bool.and_eq_true, decide_eq_true_eq] at hr
      exact hr.2
  · refine countP_aggregate_laborOH X opsMap cem b a _ ?_ ?_
    · intro p
      rcases p with ⟨x, y⟩
      by_cases h1 : x = b <;> by_cases h2 : y = a <;>
        simp [laborOHRow, h1, h2, Prod.ext_iff]
    · intro r hr
      simp only [Bool.and_eq_true, decide_eq_true_eq] at hr
      exact hr.1.1.1.1.2

/-- C3: the aggregated table is one row per group key; a Labor row keeps the
summed quantity, the hour unit and the value/quantity rate (with the
substitution price := value when the summed quantity is zero); a non-Labor
row is forced to quantity 1, the lump-sum unit and price = total value. -/
theorem C3_cost_type_normalization (X : List ExportRow) (opsMap : Int → Option OpData)
    (cem : CEMap) (k : GroupKey) :
    aggregateGrouped X opsMap cem = (aggKeys X).map (mkGroupRow X opsMap cem)
    ∧ (mkGroupRow X opsMap cem k).costType = get_cost_type k.ce cem
    ∧ ((mkGroupRow X opsMap cem k).quantity
        = (if (mkGroupRow X opsMap cem k).costType = "Labor" then groupQty X k else 1))
    ∧ ((mkGroupRow X opsMap cem k).units
        = (if (mkGroupRow X opsMap cem k).costType = "Labor" then "HR" else "LS"))
    ∧ ((mkGroupRow X opsMap cem k).unitPrice
        = (if (mkGroupRow X opsMap cem k).costType = "Labor" then
            (if groupQty X k = 0 then groupVal X k else groupVal X k / groupQty X k)
          else groupVal X k)) := by
  refine ⟨rfl, rfl, ?_, ?_, ?_⟩ <;>
    by_cases hct : get_cost_type k.ce cem = "Labor" <;>
      by_cases hq : groupQty X k = 0 <;>
        simp [mkGroupRow, hct, hq]

/-- C4 counterexample: two rows of one operation with distinct unknown cost
elements but the same cost-element name collapse to the same resource code
`"6FOO"`, so the same (bid-item, activity) pair carries two rows with one
resource code. -/
theorem C4_counterexample :
    ¬ (((aggregate_actuals
        [⟨some 7, 1010, Cell.int 9999991, "FOO", Cell.blank, 0, 10⟩,
         ⟨some 7, 1010, Cell.int 9999992, "FOO", Cell.blank, 0, 20⟩]
        OPERATIONS_MAP cemNone).countP fun r =>
          decide (r.bidItem = 1010) && decide (r.activity = "0101-1010A")
            && decide (r.resource = "6FOO")) ≤ 1) := by
  decide

/-- C4 amended: the aggregation emits exactly one row per distinct grouping
key (operation, cost element, partner-center key, cost-element name);
distinct keys inside one (bid-item, activity) pair may still produce the
same resource code, so per-resource-code uniqueness does not hold. -/
theorem C4_one_row_per_group_key (X : List ExportRow) (opsMap : Int → Option OpData)
    (cem : CEMap) :
    (aggKeys X).Nodup
    ∧ aggregateGrouped X opsMap cem = (aggKeys X).map (mkGroupRow X opsMap cem)
    ∧ (aggregateGrouped X opsMap cem).length = (aggKeys X).length :=
  ⟨nodup_firstSeen _, rfl, by rw [aggregateGrouped, List.length_map]⟩

/-- C5: the worked example - Operation 1010, Cost Element 6603001
("Construction"), Partner-CCtr 5000, quantity 40, value 4000 - yields
exactly the row BidItem 1010, Resource "6CONSTR5000", Quantity 40, unit HR,
Unit Price 100, Cost Type Labor (with the reference cost-elements map
absent, its parameter default). -/
theorem C5_construction_example :
    aggregate_actuals
        [⟨some 5000001, 1010, Cell.int 6603001, "Construction", Cell.int 5000, 40, 4000⟩]
        OPERATIONS_MAP cemNone
      = [⟨1010, "0101-1010A", "6CONSTR5000", 40, "HR", 100, Cell.int 6603001,
          "Construction", "Labor"⟩] := by
  decide

theorem mem_bidItem_preAfudc (X : List ExportRow) (opsMap : Int → Option OpData) (cem : CEMap) :
    1010 ∈ (preAfudc X opsMap cem).map (fun r => r.bidItem)
      ↔ 1010 ∈ (aggregateGrouped X opsMap cem).map (fun r => r.bidItem) := by
  unfold preAfudc
  rw [List.map_append, List.mem_append]
  constructor
  · rintro (h | h)
    · exact h
    · rcases List.mem_map.1 h with ⟨r, hr, hb⟩
      rcases mem_laborOHRowsOf X opsMap cem r hr with ⟨p, hp, _, hrow⟩
      have hp' : p ∈ (aggregateGrouped X opsMap cem).map rowPair := by
        unfold ohPairs at hp
        exact (mem_firstSeen _ _).1 hp
      rcases List.mem_map.1 hp' with ⟨g, hg, hgp⟩
      refine List.mem_map.2 ⟨g, hg, ?_⟩
      have h1 : r.bidItem = p.1 := by
        rw [hrow]
        rfl
      have h2 : g.bidItem = p.1 := by
        rw [← hgp]
        rfl
      show g.bidItem = 1010
      rw [h2, ← h1]
      exact hb
  · intro h
    exact Or.inl h

/-- C2: synthesized AFUDC rows appear only for bid-item 1010, only when that
bid-item already has an aggregated row; at most two are emitted, each gated
independently on its own summed Operation-1 total with unit price equal to
that total, and each carries the derived activity (the base activity with
its second-to-last character flipped from 0 to 1, the base reused when that
character is not 0).  The spec's concrete example (Operation-1 rows with
cost elements 5590030 value 500 and 5590031 value 300, bid-item 1010
present at base activity 0101-1010A) yields exactly two AFUDC rows at
activity 0101-1011A with unit prices 500 and 300. -/
theorem C2_afudc_rows (X : List ExportRow) (opsMap : Int → Option OpData) (cem : CEMap) :
    (∀ r ∈ afudcRowsOf X opsMap cem,
        r.bidItem = 1010 ∧ r.costType = "AFUDC" ∧ r.quantity = 1 ∧ r.units = "LS"
          ∧ r.activity = afudcActivityOf (afudcBaseActivity opsMap))
    ∧ (afudcRowsOf X opsMap cem ≠ [] →
        1010 ∈ (aggregateGrouped X opsMap cem).map (fun r => r.bidItem))
    ∧ (afudcRowsOf X opsMap cem).length ≤ 2
    ∧ ((afudcRowsOf X opsMap cem).countP fun r =>
          decide (r.resource = "6AFUDC-Bo") && decide (r.unitPrice = afudcBorrowedTotal X))
        = (if epsGate (afudcBorrowedTotal X) = true
              ∧ 1010 ∈ (aggregateGrouped X opsMap cem).map (fun r => r.bidItem) then 1 else 0)
    ∧ ((afudcRowsOf X opsMap cem).countP fun r =>
          decide (r.resource = "6AFUDC-Eq") && decide (r.unitPrice = afudcEquityTotal X))
        = (if epsGate (afudcEquityTotal X) = true
              ∧ 1010 ∈ (aggregateGrouped X opsMap cem).map (fun r => r.bidItem) then 1 else 0)
    ∧ aggregate_actuals
        [⟨some 5000001, 1, Cell.int 5590030, "AFUDC-Borrowed", Cell.blank, 0, 500⟩,
         ⟨some 5000001, 1, Cell.int 5590031, "AFUDC-Equity", Cell.blank, 0, 300⟩,
         ⟨some 5000001, 1010, Cell.int 6603001, "Construction", Cell.int 5000, 40, 4000⟩]
        OPERATIONS_MAP cemNone
      = [⟨1010, "0101-1010A", "6CONSTR5000", 40, "HR", 100, Cell.int 6603001,
          "Construction", "Labor"⟩,
         ⟨1010, "0101-1011A", "6AFUDC-Bo", 1, "LS", 500, Cell.int 5590030,
          "AFUDC-Borrowed", "AFUDC"⟩,
         ⟨1010, "0101-1011A", "6AFUDC-Eq", 1, "LS", 300, Cell.int 5590031,
          "AFUDC-Equity", "AFUDC"⟩] := by
  have hiff := mem_bidItem_preAfudc X opsMap cem
  refine ⟨?_, ?_, ?_, ?_, ?_, by decide⟩
  · intro r hr
    rcases mem_afudcRowsOf X opsMap cem r hr with ⟨h1, h2, h3, h4, h5, _⟩
    exact ⟨h1, h2, h3, h4, h5⟩
  · intro hne
    unfold afudcRowsOf at hne
    split at hne
    · rename_i hcond
      rw [Bool.and_eq_true] at hcond
      exact hiff.1 (of_decide_eq_true hcond.2)
    · exact absurd rfl hne
  · unfold afudcRowsOf
    split
    · split <;> split <;> simp
    · simp
  · unfold afudcRowsOf
    by_cases hM : 1010 ∈ (preAfudc X opsMap cem).map (fun r => r.bidItem)
    · have hMg : 1010 ∈ (aggregateGrouped X opsMap cem).map (fun r => r.bidItem) := hiff.1 hM
      by_cases hB : epsGate (afudcBorrowedTotal X) = true <;>
        by_cases hE : epsGate (afudcEquityTotal X) = true <;>
          simp [hM, hMg, hB, hE, afudcRow, List.countP_cons]
    · have hMg : ¬ (1010 ∈ (aggregateGrouped X opsMap cem).map (fun r => r.bidItem)) :=
        fun h => hM (hiff.2 h)
      by_cases hB : epsGate (afudcBorrowedTotal X) = true <;>
        by_cases hE : epsGate (afudcEquityTotal X) = true <;>
          simp [hM, hMg, hB, hE]
  · unfold afudcRowsOf
    by_cases hM : 1010 ∈ (preAfudc X opsMap cem).map (fun r => r.bidItem)
    · have hMg : 1010 ∈ (aggregateGrouped X opsMap cem).map (fun r => r.bidItem) := hiff.1 hM
      by_cases hB : epsGate (afudcBorrowedTotal X) = true <;>
        by_cases hE : epsGate (afudcEquityTotal X) = true <;>
          simp [hM, hMg, hB, hE, afudcRow, List.countP_cons]
    · have hMg : ¬ (1010 ∈ (aggregateGrouped X opsMap cem).map (fun r => r.bidItem)) :=
        fun h => hM (hiff.2 h)
      by_cases hB : epsGate (afudcBorrowedTotal X) = true <;>
        by_cases hE : epsGate (afudcEquityTotal X) = true <;>
          simp [hM, hMg, hB, hE]

/-- Witness for C2: the borrowed-funds AFUDC row of the spec's example input
satisfies the per-row facts of the theorem. -/
theorem C2_afudc_rows_witness :
    (⟨1010, "0101-1011A", "6AFUDC-Bo", 1, "LS", 500, Cell.int 5590030,
        "AFUDC-Borrowed", "AFUDC"⟩ : ActualsRow).bidItem = 1010
    ∧ (⟨1010, "0101-1011A", "6AFUDC-Bo", 1, "LS", 500, Cell.int 5590030,
        "AFUDC-Borrowed", "AFUDC"⟩ : ActualsRow).costType = "AFUDC"
    ∧ (⟨1010, "0101-1011A", "6AFUDC-Bo", 1, "LS", 500, Cell.int 5590030,
        "AFUDC-Borrowed", "AFUDC"⟩ : ActualsRow).quantity = 1
    ∧ (⟨1010, "0101-1011A", "6AFUDC-Bo", 1, "LS", 500, Cell.int 5590030,
        "AFUDC-Borrowed", "AFUDC"⟩ : ActualsRow).units = "LS"
    ∧ (⟨1010, "0101-1011A", "6AFUDC-Bo", 1, "LS", 500, Cell.int 5590030,
        "AFUDC-Borrowed", "AFUDC"⟩ : ActualsRow).activity
        = afudcActivityOf (afudcBaseActivity OPERATIONS_MAP) :=
  (C2_afudc_rows
      [⟨some 5000001, 1, Cell.int 5590030, "AFUDC-Borrowed", Cell.blank, 0, 500⟩,
       ⟨some 5000001, 1, Cell.int 5590031, "AFUDC-Equity", Cell.blank, 0, 300⟩,
       ⟨some 5000001, 1010, Cell.int 6603001, "Construction", Cell.int 5000, 40, 4000⟩]
      OPERATIONS_MAP cemNone).1
    ⟨1010, "0101-1011A", "6AFUDC-Bo", 1, "LS", 500, Cell.int 5590030,
      "AFUDC-Borrowed", "AFUDC"⟩
    (by decide)

theorem create_boe_notes_inv (d : String) (rows : List ActualsRow) (e : BoeEntry)
    (he : e ∈ create_boe_notes d rows) :
    (e.bidItem, e.activity) ∈ rows.map rowPair
    ∧ (∃ r ∈ rows, r.bidItem = e.bidItem ∧ r.activity = e.activity ∧ r.costType = "Labor")
    ∧ e.notes = String.intercalate ("\n") ((d ++ ": ")
        :: (((rows.filter fun r => decide (r.bidItem = e.bidItem ∧ r.activity = e.activity)).filter
              fun r => (r.costType == "Labor") && !(isLaborOHRes r)).map boeLine)) := by
  unfold create_boe_notes at he
  rcases List.mem_filterMap.1 he with ⟨p, hp, hpe⟩
  split at hpe
  · rename_i hany
    injection hpe with hpe
    subst hpe
    refine ⟨(mem_firstSeen _ _).1 hp, ?_, rfl⟩
    rcases List.any_eq_true.1 hany with ⟨r, hrg, hrl⟩
    rcases List.mem_filter.1 hrg with ⟨hrmem, hrp⟩
    have hrp' := of_decide_eq_true hrp
    exact ⟨r, hrmem, hrp'.1, hrp'.2, by
      have := hrl
      rw [beq_iff_eq] at this
      exact this⟩
  · exact absurd hpe (by simp)

theorem create_boe_notes_complete (d : String) (rows : List ActualsRow) (b : Int) (a : String)
    (h : ∃ r ∈ rows, r.bidItem = b ∧ r.activity = a ∧ r.costType = "Labor") :
    ∃ e ∈ create_boe_notes d rows, e.bidItem = b ∧ e.activity = a := by
  rcases h with ⟨r, hr, hb, ha, hct⟩
  have hpair : (b, a) ∈ rows.map rowPair := by
    refine List.mem_map.2 ⟨r, hr, ?_⟩
    unfold rowPair
    rw [hb, ha]
  have hp : (b, a) ∈ firstSeen (rows.map rowPair) := (mem_firstSeen _ _).2 hpair
  have hany : (rows.filter fun x => decide (x.bidItem = b ∧ x.activity = a)).any
      (fun x => x.costType == "Labor") = true := by
    rw [List.any_eq_true]
    refine ⟨r, List.mem_filter.2 ⟨hr, decide_eq_true ⟨hb, ha⟩⟩, ?_⟩
    rw [beq_iff_eq]
    exact hct
  refine ⟨⟨b, a, String.intercalate ("\n") ((d ++ ": ")
      :: (((rows.filter fun x => decide (x.bidItem = b ∧ x.activity = a)).filter
            fun x => (x.costType == "Labor") && !(isLaborOHRes x)).map boeLine))⟩, ?_, rfl, rfl⟩
  unfold create_boe_notes
  refine List.mem_filterMap.2 ⟨(b, a), hp, ?_⟩
  rw [if_pos hany]

theorem aggregateGrouped_bidItem_ne (X : List ExportRow) (opsMap : Int → Option OpData)
    (cem : CEMap) (op : Int) (_hop : op ≠ 1)
    (hall : ∀ r ∈ X, r.operation = op → isOverheadCE r.costElement = true) :
    ∀ g ∈ aggregateGrouped X opsMap cem, g.bidItem ≠ op := by
  intro g hg
  rcases mem_aggregateGrouped X opsMap cem g hg with ⟨k, hk, hkg⟩
  subst hkg
  show k.op ≠ op
  intro hkop
  unfold aggKeys at hk
  have hk' := (mem_firstSeen _ _).1 hk
  rcases List.mem_map.1 hk' with ⟨r, hrf, hrk⟩
  rcases List.mem_filter.1 hrf with ⟨hrX, hrcond⟩
  rw [Bool.and_eq_true] at hrcond
  have hrop : r.operation = op := by
    have : (rowKey r).op = k.op := by rw [hrk]
    rw [← hkop, ← this]
    rfl
  have hoh := hall r hrX hrop
  rw [hoh] at hrcond
  simp at hrcond

/-- C10: every synthesized Labor OH row shares its (bid-item, activity) pair
with an ordinary aggregated row; consequently an operation other than 1
whose export rows all carry overhead-source cost elements (string form
starting `6010`) contributes no row to the Actuals Report and no entry to
the BoE notes - its precomputed overhead total is never emitted. -/
theorem C10_overhead_only_operations (X : List ExportRow) (opsMap : Int → Option OpData)
    (cem : CEMap) (dateStr : String) (op : Int) :
    (∀ r ∈ laborOHRowsOf X opsMap cem,
        ∃ g ∈ aggregateGrouped X opsMap cem, g.bidItem = r.bidItem ∧ g.activity = r.activity)
    ∧ (op ≠ 1 →
        (∀ r ∈ X, r.operation = op → isOverheadCE r.costElement = true) →
        (∀ row ∈ aggregate_actuals X opsMap cem, row.bidItem ≠ op)
          ∧ (∀ e ∈ create_boe_notes dateStr (aggregate_actuals X opsMap cem),
              e.bidItem ≠ op)) := by
  constructor
  · intro r hr
    rcases mem_laborOHRowsOf X opsMap cem r hr with ⟨p, hp, _, hrow⟩
    unfold ohPairs at hp
    rcases List.mem_map.1 ((mem_firstSeen _ _).1 hp) with ⟨g, hg, hgp⟩
    refine ⟨g, hg, ?_, ?_⟩
    · rw [hrow]
      rw [← hgp]
      rfl
    · rw [hrow]
      rw [← hgp]
      rfl
  · intro hop hall
    have hgne := aggregateGrouped_bidItem_ne X opsMap cem op hop hall
    have hmain : ∀ row ∈ aggregate_actuals X opsMap cem, row.bidItem ≠ op := by
      intro row hrow
      unfold aggregate_actuals at hrow
      have hrow' := (List.perm_insertionSort (fun x y => rowLe x y = true) _).mem_iff.1 hrow
      rcases List.mem_append.1 hrow' with h | h
      · unfold preAfudc at h
        rcases List.mem_append.1 h with h | h
        · exact hgne row h
        · rcases mem_laborOHRowsOf X opsMap cem row h with ⟨p, hp, _, hrw⟩
          unfold ohPairs at hp
          rcases List.mem_map.1 ((mem_firstSeen _ _).1 hp) with ⟨g, hg, hgp⟩
          have hb : row.bidItem = g.bidItem := by
            rw [hrw, ← hgp]
            rfl
          rw [hb]
          exact hgne g hg
      · have h1010 : row.bidItem = 1010 := (mem_afudcRowsOf X opsMap cem row h).1
        rw [h1010]
        intro hopeq
        have hne : afudcRowsOf X opsMap cem ≠ [] := by
          intro hnil
          rw [hnil] at h
          simp at h
        unfold afudcRowsOf at hne
        split at hne
        · rename_i hcond
          rw [Bool.and_eq_true] at hcond
          have hmem := (mem_bidItem_preAfudc X opsMap cem).1 (of_decide_eq_true hcond.2)
          rcases List.mem_map.1 hmem with ⟨g, hg, hgb⟩
          exact hgne g hg (by rw [hgb, ← hopeq])
        · exact absurd rfl hne
    refine ⟨hmain, ?_⟩
    intro e he
    rcases create_boe_notes_inv dateStr _ e he with ⟨hpair, _, _⟩
    rcases List.mem_map.1 hpair with ⟨row, hrow, hrp⟩
    have hbe : row.bidItem = e.bidItem := congrArg Prod.fst hrp
    rw [← hbe]
    exact hmain row hrow

/-- Witness for C10: an operation (2010) whose only export row is an
overhead-source posting vanishes from the Actuals Report even though
another operation's row survives. -/
theorem C10_overhead_only_operations_witness :
    (aggregate_actuals
        [⟨some 7, 2010, Cell.int 6010123, "OH Alloc", Cell.blank, 0, 100⟩,
         ⟨some 7, 2110, Cell.int 5490000, "Contracts", Cell.blank, 0, 77⟩]
        OPERATIONS_MAP cemNone).countP (fun row => decide (row.bidItem = 2010)) = 0 := by
  rw [List.countP_eq_zero]
  intro row hrow
  have h := ((C10_overhead_only_operations
      [⟨some 7, 2010, Cell.int 6010123, "OH Alloc", Cell.blank, 0, 100⟩,
       ⟨some 7, 2110, Cell.int 5490000, "Contracts", Cell.blank, 0, 77⟩]
      OPERATIONS_MAP cemNone ("1/1/25") 2010).2 (by decide) (by decide)).1 row hrow
  simp [h]

/-- A Labor-typed row of the final Actuals table never carries an overhead
resource: synthesized rows are typed `Labor Alloc.`/`AFUDC`, and generated
resource codes cannot contain the substring `Labor OH`. -/
theorem aggregate_labor_no_ohres (X : List ExportRow) (opsMap : Int → Option OpData)
    (cem : CEMap) (r : ActualsRow) (hr : r ∈ aggregate_actuals X opsMap cem)
    (hct : r.costType = "Labor") : isLaborOHRes r = false := by
  unfold aggregate_actuals at hr
  have hr' := (List.perm_insertionSort (fun x y => rowLe x y = true) _).mem_iff.1 hr
  rcases List.mem_append.1 hr' with h | h
  · unfold preAfudc at h
    rcases List.mem_append.1 h with h | h
    · exact aggregateGrouped_no_laborOH X opsMap cem r h
    · rcases mem_laborOHRowsOf X opsMap cem r h with ⟨p, _, _, hrw⟩
      have : r.costType = "Labor Alloc." := by
        rw [hrw]
        rfl
      rw [this] at hct
      exact absurd hct (by decide)
  · have : r.costType = "AFUDC" := (mem_afudcRowsOf X opsMap cem r h).2.1
    rw [this] at hct
    exact absurd hct (by decide)

/-- C6: a BoE entry exists for a (bid-item, activity) pair exactly when the
transform's actuals table has a Labor-typed, non-overhead row at that pair,
and every entry's text is the dated header line followed by one `boeLine`
per qualifying labor resource of its group. -/
theorem C6_boe_notes (X : List ExportRow) (opsMap : Int → Option OpData) (cem : CEMap)
    (dateStr : String) (b : Int) (a : String) :
    ((∃ e ∈ create_boe_notes dateStr (aggregate_actuals X opsMap cem),
        e.bidItem = b ∧ e.activity = a)
      ↔ (∃ r ∈ aggregate_actuals X opsMap cem,
          r.bidItem = b ∧ r.activity = a ∧ r.costType = "Labor" ∧ isLaborOHRes r = false))
    ∧ (∀ e ∈ create_boe_notes dateStr (aggregate_actuals X opsMap cem),
        e.notes = String.intercalate ("\n") ((dateStr ++ ": ")
          :: ((((aggregate_actuals X opsMap cem).filter
                fun r => decide (r.bidItem = e.bidItem ∧ r.activity = e.activity)).filter
                fun r => (r.costType == "Labor") && !(isLaborOHRes r)).map boeLine))) := by
  constructor
  · constructor
    · rintro ⟨e, he, hb, ha⟩
      rcases create_boe_notes_inv dateStr _ e he with ⟨_, ⟨r, hr, hrb, hra, hrc⟩, _⟩
      refine ⟨r, hr, ?_, ?_, hrc, aggregate_labor_no_ohres X opsMap cem r hr hrc⟩
      · rw [hrb, hb]
      · rw [hra, ha]
    · rintro ⟨r, hr, hb, ha, hct, _⟩
      exact create_boe_notes_complete dateStr _ b a ⟨r, hr, hb, ha, hct⟩
  · intro e he
    exact (create_boe_notes_inv dateStr _ e he).2.2

/-- Witness for C6: the single-Labor-row example yields one entry whose
notes text is the dated header and one labor line. -/
theorem C6_boe_notes_witness :
    (⟨1010, "0101-1010A",
        "10/12/25: \nCONSTR5000: 40 MH Actuals to date, Projected an additional 0 MH for the remainder of the Activity"⟩
      : BoeEntry).notes
      = String.intercalate ("\n") (("10/12/25" ++ ": ")
          :: ((((aggregate_actuals
                  [⟨some 5000001, 1010, Cell.int 6603001, "Construction", Cell.int 5000, 40, 4000⟩]
                  OPERATIONS_MAP cemNone).filter
                fun r => decide (r.bidItem = (1010 : Int) ∧ r.activity = "0101-1010A")).filter
                fun r => (r.costType == "Labor") && !(isLaborOHRes r)).map boeLine)) :=
  (C6_boe_notes
      [⟨some 5000001, 1010, Cell.int 6603001, "Construction", Cell.int 5000, 40, 4000⟩]
      OPERATIONS_MAP cemNone ("10/12/25") 1010 ("0101-1010A")).2
    ⟨1010, "0101-1010A",
      "10/12/25: \nCONSTR5000: 40 MH Actuals to date, Projected an additional 0 MH for the remainder of the Activity"⟩
    (by decide)

theorem dedupByRes_map (rows : List ActualsRow) :
    ∀ seen : List String,
      (dedupByRes seen rows).map (fun r => r.resource)
        = firstSeenAux seen (rows.map fun r => r.resource) := by
  induction rows with
  | nil =>
    intro seen
    simp [dedupByRes, firstSeenAux]
  | cons r rs ih =>
    intro seen
    by_cases hs : r.resource ∈ seen <;>
      simp [dedupByRes, firstSeenAux, hs, ih]

theorem dedupByRes_subset (rows : List ActualsRow) :
    ∀ (seen : List String) (r : ActualsRow), r ∈ dedupByRes seen rows → r ∈ rows := by
  induction rows with
  | nil =>
    intro seen r hr
    simp [dedupByRes] at hr
  | cons x xs ih =>
    intro seen r hr
    unfold dedupByRes at hr
    split at hr
    · exact List.mem_cons_of_mem _ (ih seen r hr)
    · rcases List.mem_cons.1 hr with h | h
      · subst h
        exact List.mem_cons_self _ _
      · exact List.mem_cons_of_mem _ (ih _ r h)

/-- C7: the Resource File holds exactly one entry per distinct resource code
of the Actuals table, in first occurrence order (first row wins), and each
entry's description is the cost-type label prefix followed by the stripped
resource code (Labor) or the row's description (otherwise). -/
theorem C7_resource_file (rows : List ActualsRow) :
    (create_resource_file rows).map (fun e => e.code) = firstSeen (rows.map fun r => r.resource)
    ∧ ((create_resource_file rows).map (fun e => e.code)).Nodup
    ∧ (∀ e ∈ create_resource_file rows,
        ∃ r, r ∈ dedupByRes [] rows ∧ r ∈ rows ∧ e.code = r.resource
          ∧ e.description = costTypeLabel r.costType
              ++ (if r.costType = "Labor" then
                    (if pyStartsWith r.resource ("6") then String.mk (r.resource.data.drop 1)
                     else r.resource)
                  else r.description)) := by
  have hmap : (create_resource_file rows).map (fun e => e.code)
      = firstSeen (rows.map fun r => r.resource) := by
    unfold create_resource_file firstSeen
    rw [List.map_map]
    exact dedupByRes_map rows []
  refine ⟨hmap, ?_, ?_⟩
  · rw [hmap]
    exact nodup_firstSeen _
  · intro e he
    rcases List.mem_map.1 he with ⟨r, hrd, hre⟩
    exact ⟨r, hrd, dedupByRes_subset rows [] r hrd, by rw [← hre]; rfl, by rw [← hre]; rfl⟩

/-- Witness for C7: the single-row example produces the one labelled
Labor entry. -/
theorem C7_resource_file_witness :
    ∃ r, r ∈ dedupByRes []
        [⟨1010, "0101-1010A", "6CONSTR5000", 40, "HR", 100, Cell.int 6603001,
          "Construction", "Labor"⟩]
      ∧ r ∈ [(⟨1010, "0101-1010A", "6CONSTR5000", 40, "HR", 100, Cell.int 6603001,
          "Construction", "Labor"⟩ : ActualsRow)]
      ∧ (⟨"6CONSTR5000", "Actls. - Labr. - CONSTR5000"⟩ : ResourceEntry).code = r.resource
      ∧ (⟨"6CONSTR5000", "Actls. - Labr. - CONSTR5000"⟩ : ResourceEntry).description
          = costTypeLabel r.costType
              ++ (if r.costType = "Labor" then
                    (if pyStartsWith r.resource ("6") then String.mk (r.resource.data.drop 1)
                     else r.resource)
                  else r.description) :=
  (C7_resource_file
      [⟨1010, "0101-1010A", "6CONSTR5000", 40, "HR", 100, Cell.int 6603001,
        "Construction", "Labor"⟩]).2.2
    ⟨"6CONSTR5000", "Actls. - Labr. - CONSTR5000"⟩ (by decide)

/-- C8 counterexample: an export carrying two distinct order values (100 and
200) does not fail ingestion - the cleaned rows are returned and the first
order value is extracted, with no uniformity check. -/
theorem C8_counterexample :
    get_order_from_export
        [⟨some 100, 1010, Cell.blank, "", Cell.blank, 0, 0⟩,
         ⟨some 200, 1010, Cell.blank, "", Cell.blank, 0, 0⟩] = Except.ok 100
    ∧ read_sap_export
        [⟨some 100, 1010, Cell.blank, "", Cell.blank, 0, 0⟩,
         ⟨some 200, 1010, Cell.blank, "", Cell.blank, 0, 0⟩]
      = Except.ok
          [⟨some 100, 1010, Cell.blank, "", Cell.blank, 0, 0⟩,
           ⟨some 200, 1010, Cell.blank, "", Cell.blank, 0, 0⟩] := by
  exact ⟨rfl, rfl⟩

/-- C8 amended: ingestion fails exactly when no row carries an order value;
otherwise it returns the cleaned rows and the first row's order value, even
when order values are not uniform. -/
theorem C8_order_extraction (rows : List ExportRow) :
    ((rows.filter fun r => r.order.isSome) = [] →
      (∃ msg, get_order_from_export rows = Except.error msg)
        ∧ (∃ msg, read_sap_export rows = Except.error msg))
    ∧ (∀ (r : ExportRow) (rs : List ExportRow) (o : Int),
        rows.filter (fun r => r.order.isSome) = r :: rs → r.order = some o →
          get_order_from_export rows = Except.ok o
            ∧ read_sap_export rows = Except.ok (r :: rs)) := by
  constructor
  · intro hemp
    constructor
    · refine ⟨"No valid Order found in SAP export", ?_⟩
      unfold get_order_from_export
      rw [hemp]
      rfl
    · refine ⟨"IndexError", ?_⟩
      unfold read_sap_export
      rw [if_pos hemp]
  · intro r rs o hfil hord
    constructor
    · unfold get_order_from_export
      rw [hfil, List.filterMap_cons, hord]
    · unfold read_sap_export
      rw [hfil]
      rw [if_neg (by simp)]

/-- Witness for C8: the empty export fails, and a uniform single-row export
returns its order. -/
theorem C8_order_extraction_witness :
    ((∃ msg, get_order_from_export [] = Except.error msg)
      ∧ (∃ msg, read_sap_export [] = Except.error msg))
    ∧ (get_order_from_export [⟨some 100, 1010, Cell.blank, "", Cell.blank, 0, 0⟩]
          = Except.ok 100
        ∧ read_sap_export [⟨some 100, 1010, Cell.blank, "", Cell.blank, 0, 0⟩]
          = Except.ok [⟨some 100, 1010, Cell.blank, "", Cell.blank, 0, 0⟩]) :=
  ⟨(C8_order_extraction []).1 (by decide),
   (C8_order_extraction [⟨some 100, 1010, Cell.blank, "", Cell.blank, 0, 0⟩]).2
     ⟨some 100, 1010, Cell.blank, "", Cell.blank, 0, 0⟩ [] 100 (by decide) (by decide)⟩

/-- C9 counterexample: a row with a non-numeric cost element and partner
center is silently coerced - the cost element normalizes to the missing
value, the partner center coerces to missing, and the transform completes,
emitting a fallback-classified row.  No MalformedRecordError is raised (no
such error exists in the program). -/
theorem C9_counterexample :
    normalize_cost_element (Cell.text "BAD") = none
    ∧ partnerNumOf (Cell.text "oops") = none
    ∧ aggregate_actuals
        [⟨some 7, 2110, Cell.text "BAD", "Mystery Item", Cell.text "oops", 2, 50⟩]
        OPERATIONS_MAP cemNone
      = [⟨2110, "0202-2110A", "6MYSITE", 1, "LS", 50, Cell.text "BAD",
          "Mystery Item", "Other"⟩] := by
  refine ⟨rfl, rfl, by decide⟩

/-- C9 amended: normalization of numeric fields is total and silent - a
blank or non-numeric cost element becomes the missing value (no error), a
numeric one its integer; a non-numeric partner center coerces to missing
while a numeric one survives. -/
theorem C9_malformed_coercion (c : Cell) :
    (normalize_cost_element c = none ↔ (c = Cell.blank ∨ ∃ s, c = Cell.text s))
    ∧ (partnerNumOf c = none ↔ (c = Cell.blank ∨ ∃ s, c = Cell.text s))
    ∧ (∀ n : Int, normalize_cost_element (Cell.int n) = some n
        ∧ partnerNumOf (Cell.int n) = some n) := by
  refine ⟨?_, ?_, fun n => ⟨rfl, rfl⟩⟩ <;>
    cases c <;> simp [normalize_cost_element, partnerNumOf]
